import Mathlib

/-!
# golang-slack-webhook: the message model and its delivery

A shallow embedding of `main.go` (package `slack`): the payload structures with their
`json` struct tags, `json.Marshal` as it acts on them, and the two delivery functions
`PostMessage` and `Send`.

Conventions of the embedding.
* A Go `string` is a sequence of bytes (`GoString`); it need not be valid UTF-8.
* A Go slice is `Option (List α)`: `none` is the `nil` slice, `some []` an empty non-nil one.
* Go integers are `Int`; no arithmetic is done on them, so no overflow arises.
* An `error` value is identified by its message; the `error` interface is `Option GoError`
  (`none` is `nil`).
* The packages `encoding/json`, `net/http` and `gorequest` are not part of the repository.
  They are modelled from their documented behaviour, to the extent the program uses them.
-/

namespace Slack

/-! ## Go strings -/

/-- A Go string: an immutable sequence of bytes. -/
abbrev GoString := List UInt8

/-- The bytes of a string literal of the Go source (UTF-8). -/
def lit (s : String) : GoString := s.data.flatMap String.utf8EncodeChar

/-- The table `first` of package `unicode/utf8` with its accept ranges: for a leading byte,
the length of the sequence and the range allowed for the second byte. -/
def utf8First (b0 : UInt8) : Option (Nat × UInt8 × UInt8) :=
  if 0xC2 ≤ b0 ∧ b0 ≤ 0xDF then some (2, 0x80, 0xBF)
  else if b0 = 0xE0 then some (3, 0xA0, 0xBF)
  else if b0 = 0xED then some (3, 0x80, 0x9F)
  else if 0xE1 ≤ b0 ∧ b0 ≤ 0xEF then some (3, 0x80, 0xBF)
  else if b0 = 0xF0 then some (4, 0x90, 0xBF)
  else if 0xF1 ≤ b0 ∧ b0 ≤ 0xF3 then some (4, 0x80, 0xBF)
  else if b0 = 0xF4 then some (4, 0x80, 0x8F)
  else none

/-- The size `utf8.DecodeRuneInString` reports for the rune at the head of `s`, when that
rune is well formed; `none` when it reports `(RuneError, 1)`, or `s` is empty. -/
def runeLen : GoString → Option Nat
  | [] => none
  | b0 :: rest =>
    if b0 < 0x80 then some 1
    else
      match utf8First b0 with
      | none => none
      | some (size, lo, hi) =>
        match rest with
        | [] => none
        | b1 :: rest1 =>
          if b1 < lo ∨ hi < b1 then none
          else if size = 2 then some 2
          else
            match rest1 with
            | [] => none
            | b2 :: rest2 =>
              if b2 < 0x80 ∨ 0xBF < b2 then none
              else if size = 3 then some 3
              else
                match rest2 with
                | [] => none
                | b3 :: _ => if b3 < 0x80 ∨ 0xBF < b3 then none else some 4

/-- Loop of `utf8.ValidString`; `fuel` bounds the number of runes. -/
def validStringAux : Nat → GoString → Bool
  | _, [] => true
  | 0, _ :: _ => false
  | fuel + 1, b :: rest =>
    match runeLen (b :: rest) with
    | some n => validStringAux fuel ((b :: rest).drop n)
    | none => false

/-- `utf8.ValidString`: the bytes are a sequence of well-formed UTF-8 runes. -/
def validString (s : GoString) : Bool := validStringAux s.length s

/-- UTF-8 encoding of U+FFFD, the replacement rune. -/
def replacementRune : GoString := [0xEF, 0xBF, 0xBD]

/-- Loop of `coerceUTF8`; `fuel` bounds the number of runes. -/
def coerceUTF8Aux : Nat → GoString → GoString
  | _, [] => []
  | 0, _ :: _ => []
  | fuel + 1, b :: rest =>
    match runeLen (b :: rest) with
    | some n => (b :: rest).take n ++ coerceUTF8Aux fuel ((b :: rest).drop n)
    | none => replacementRune ++ coerceUTF8Aux fuel rest

/-- The string a JSON reader gets back from what `json.Marshal` wrote for `s`:
"String values encode as JSON strings coerced to valid UTF-8, replacing invalid bytes with
the Unicode replacement rune." Every byte that does not start a well-formed rune becomes
U+FFFD. -/
def coerceUTF8 (s : GoString) : GoString := coerceUTF8Aux s.length s

/-! ## JSON documents and their text -/

/-- A JSON document as `encoding/json` writes it for the structures of this package:
numbers are integers, object members keep the order in which they are written.
A `str` leaf holds the Go string handed to the encoder. -/
inductive JSON where
  | null : JSON
  | bool (b : Bool) : JSON
  | num (n : Int) : JSON
  | str (s : GoString) : JSON
  | arr (elems : List JSON) : JSON
  | obj (members : List (String × JSON)) : JSON
  deriving Inhabited

/-- Hexadecimal digit, the table `hex` of `encoding/json`. -/
def hexDigit (n : Nat) : UInt8 :=
  if n < 10 then UInt8.ofNat (48 + n) else UInt8.ofNat (87 + n)

/-- What the string encoder writes for one ASCII byte, with HTML escaping on (the setting
of `json.Marshal`). -/
def escapeByte (b : UInt8) : GoString :=
  if b = 0x22 ∨ b = 0x5C then [0x5C, b]
  else if b = 0x08 then lit "\\b"
  else if b = 0x0C then lit "\\f"
  else if b = 0x0A then lit "\\n"
  else if b = 0x0D then lit "\\r"
  else if b = 0x09 then lit "\\t"
  else if b < 0x20 ∨ b = 0x3C ∨ b = 0x3E ∨ b = 0x26 then
    lit "\\u00" ++ [hexDigit (b.toNat / 16), hexDigit (b.toNat % 16)]
  else [b]

/-- Loop of `appendString`, without the surrounding quotes. -/
def appendStringAux : Nat → GoString → GoString
  | _, [] => []
  | 0, _ :: _ => []
  | fuel + 1, b :: rest =>
    if b < 0x80 then escapeByte b ++ appendStringAux fuel rest
    else
      match runeLen (b :: rest) with
      | none => lit "\\ufffd" ++ appendStringAux fuel rest
      | some n =>
        (if (b :: rest).take n = [0xE2, 0x80, 0xA8] then lit "\\u2028"
         else if (b :: rest).take n = [0xE2, 0x80, 0xA9] then lit "\\u2029"
         else (b :: rest).take n) ++ appendStringAux fuel ((b :: rest).drop n)

/-- The JSON string literal `encoding/json` writes for a Go string (`appendString` with
`escapeHTML`): quotes; backslash escapes; a six-character hexadecimal escape for a control
byte and for `<`, `>`, `&`; the escape of U+FFFD for a byte that is not valid UTF-8; the
line and paragraph separators U+2028 and U+2029 escaped. -/
def appendString (s : GoString) : GoString :=
  [0x22] ++ appendStringAux s.length s ++ [0x22]

/-- Decimal digits of a natural number, most significant first. -/
def natDigits : Nat → Nat → GoString
  | 0, _ => []
  | fuel + 1, n =>
    if n < 10 then [UInt8.ofNat (48 + n)]
    else natDigits fuel (n / 10) ++ [UInt8.ofNat (48 + n % 10)]

/-- The decimal text of an integer (`strconv.AppendInt` in base 10). -/
def appendInt (n : Int) : GoString :=
  if n < 0 then lit "-" ++ natDigits (n.natAbs + 1) n.natAbs
  else natDigits (n.natAbs + 1) n.natAbs

mutual
/-- The compact text of a document, as `json.Marshal` returns it. -/
def render : JSON → GoString
  | .null => lit "null"
  | .bool true => lit "true"
  | .bool false => lit "false"
  | .num n => appendInt n
  | .str s => appendString s
  | .arr elems => lit "[" ++ renderElems elems ++ lit "]"
  | .obj members => lit "\x7b" ++ renderMembers members ++ lit "\x7d"
/-- The elements of an array, separated by commas. -/
def renderElems : List JSON → GoString
  | [] => []
  | [x] => render x
  | x :: y :: rest => render x ++ lit "," ++ renderElems (y :: rest)
/-- The members of an object, `"key":value`, separated by commas. -/
def renderMembers : List (String × JSON) → GoString
  | [] => []
  | [(k, v)] => appendString (lit k) ++ lit ":" ++ render v
  | (k, v) :: m :: rest =>
    appendString (lit k) ++ lit ":" ++ render v ++ lit "," ++ renderMembers (m :: rest)
end

/-! ## The data model (`main.go`, lines 14 to 119) -/

/-- Length of a slice (`len`): zero for the `nil` slice. -/
def len {α : Type} : Option (List α) → Nat
  | none => 0
  | some xs => xs.length

/-- Go struct `AttachmentField`. -/
structure AttachmentField where
  Title : GoString := []
  Value : GoString := []
  Short : Bool := false
  deriving DecidableEq

/-- Go struct `AttachmentActionOption`: the individual option to appear in action menu. -/
structure AttachmentActionOption where
  Text : GoString := []
  Value : GoString := []
  Description : GoString := []
  deriving DecidableEq

/-- Go struct `AttachmentActionOptionGroup`. -/
structure AttachmentActionOptionGroup where
  Text : GoString := []
  Options : Option (List AttachmentActionOption) := none
  deriving DecidableEq

/-- Go struct `ConfirmationField`. -/
structure ConfirmationField where
  Title : GoString := []
  Text : GoString := []
  OkText : GoString := []
  DismissText : GoString := []
  deriving DecidableEq

/-- Go struct `AttachmentAction`; the Go field `Type` is `Type_` here. -/
structure AttachmentAction where
  Name : GoString := []
  Text : GoString := []
  Style : GoString := []
  Type_ : GoString := []
  Value : GoString := []
  DataSource : GoString := []
  MinQueryLength : Int := 0
  Options : Option (List AttachmentActionOption) := none
  SelectedOptions : Option (List AttachmentActionOption) := none
  OptionGroups : Option (List AttachmentActionOptionGroup) := none
  Confirm : Option (List ConfirmationField) := none
  URL : GoString := []
  deriving DecidableEq

/-- Go struct `Attachment`. -/
structure Attachment where
  Color : GoString := []
  Fallback : GoString := []
  CallbackID : GoString := []
  ID : Int := 0
  AuthorID : GoString := []
  AuthorName : GoString := []
  AuthorSubname : GoString := []
  AuthorLink : GoString := []
  AuthorIcon : GoString := []
  Title : GoString := []
  TitleLink : GoString := []
  Pretext : GoString := []
  Text : GoString := []
  ImageURL : GoString := []
  ThumbURL : GoString := []
  Fields : Option (List AttachmentField) := none
  Actions : Option (List AttachmentAction) := none
  MarkdownIn : Option (List GoString) := none
  Footer : GoString := []
  FooterIcon : GoString := []
  Ts : Int := 0
  deriving DecidableEq

/-- Go struct `Payload`. -/
structure Payload where
  Parse : GoString := []
  Username : GoString := []
  IconUrl : GoString := []
  IconEmoji : GoString := []
  Channel : GoString := []
  Text : GoString := []
  LinkNames : GoString := []
  Attachments : Option (List Attachment) := none
  UnfurlLinks : Bool := false
  UnfurlMedia : Bool := false
  Markdown : Bool := false
  deriving DecidableEq

/-! ## `json.Marshal` on the data model

A struct is written as an object whose members follow the order of the struct fields, under
the key of the `json` tag. A field tagged `omitempty` is left out when it is empty: "false,
0, a nil pointer, a nil interface value, and any empty array, slice, map, or string". -/

/-- Member for a string field without `omitempty`. -/
def strField (key : String) (s : GoString) : List (String × JSON) := [(key, .str s)]

/-- Member for a bool field without `omitempty`. -/
def boolField (key : String) (b : Bool) : List (String × JSON) := [(key, .bool b)]

/-- The value written for a slice: `null` for the `nil` slice, else an array. -/
def sliceValue {α : Type} (f : α → JSON) : Option (List α) → JSON
  | none => .null
  | some xs => .arr (xs.map f)

/-- Member for a slice field without `omitempty`. -/
def sliceField {α : Type} (key : String) (f : α → JSON) (xs : Option (List α)) :
    List (String × JSON) := [(key, sliceValue f xs)]

/-- Member for a string field tagged `omitempty`. -/
def omitStr (key : String) (s : GoString) : List (String × JSON) :=
  if s.length = 0 then [] else [(key, .str s)]

/-- Member for an integer field tagged `omitempty`. -/
def omitInt (key : String) (n : Int) : List (String × JSON) :=
  if n = 0 then [] else [(key, .num n)]

/-- Member for a bool field tagged `omitempty`. -/
def omitBool (key : String) (b : Bool) : List (String × JSON) :=
  if b = false then [] else [(key, .bool b)]

/-- Member for a slice field tagged `omitempty`. -/
def omitSlice {α : Type} (key : String) (f : α → JSON) (xs : Option (List α)) :
    List (String × JSON) :=
  if len xs = 0 then [] else [(key, .arr ((xs.getD []).map f))]

/-- The members of a struct: those of its fields, in field order. -/
def members : List (List (String × JSON)) → List (String × JSON)
  | [] => []
  | m :: rest => m ++ members rest

/-- `json.Marshal` of an `AttachmentField` (lines 14 to 18). -/
def AttachmentField.toJSON (f : AttachmentField) : JSON :=
  .obj (members [
    strField "title" f.Title,
    strField "value" f.Value,
    boolField "short" f.Short])

/-- `json.Marshal` of an `AttachmentActionOption` (lines 39 to 43). -/
def AttachmentActionOption.toJSON (o : AttachmentActionOption) : JSON :=
  .obj (members [
    strField "text" o.Text,
    strField "value" o.Value,
    omitStr "description" o.Description])

/-- `json.Marshal` of an `AttachmentActionOptionGroup` (lines 46 to 49). -/
def AttachmentActionOptionGroup.toJSON (g : AttachmentActionOptionGroup) : JSON :=
  .obj (members [
    strField "text" g.Text,
    sliceField "options" AttachmentActionOption.toJSON g.Options])

/-- `json.Marshal` of a `ConfirmationField` (lines 68 to 73). -/
def ConfirmationField.toJSON (c : ConfirmationField) : JSON :=
  .obj (members [
    omitStr "title" c.Title,
    strField "text" c.Text,
    omitStr "ok_text" c.OkText,
    omitStr "dismiss_text" c.DismissText])

/-- `json.Marshal` of an `AttachmentAction` (lines 23 to 36). -/
def AttachmentAction.toJSON (a : AttachmentAction) : JSON :=
  .obj (members [
    strField "name" a.Name,
    strField "text" a.Text,
    omitStr "style" a.Style,
    strField "type" a.Type_,
    omitStr "value" a.Value,
    omitStr "data_source" a.DataSource,
    omitInt "min_query_length" a.MinQueryLength,
    omitSlice "options" AttachmentActionOption.toJSON a.Options,
    omitSlice "selected_options" AttachmentActionOption.toJSON a.SelectedOptions,
    omitSlice "option_groups" AttachmentActionOptionGroup.toJSON a.OptionGroups,
    omitSlice "confirm" ConfirmationField.toJSON a.Confirm,
    omitStr "url" a.URL])

/-- `json.Marshal` of an `Attachment` (lines 76 to 105). -/
def Attachment.toJSON (a : Attachment) : JSON :=
  .obj (members [
    omitStr "color" a.Color,
    strField "fallback" a.Fallback,
    omitStr "callback_id" a.CallbackID,
    omitInt "id" a.ID,
    omitStr "author_id" a.AuthorID,
    omitStr "author_name" a.AuthorName,
    omitStr "author_subname" a.AuthorSubname,
    omitStr "author_link" a.AuthorLink,
    omitStr "author_icon" a.AuthorIcon,
    omitStr "title" a.Title,
    omitStr "title_link" a.TitleLink,
    omitStr "pretext" a.Pretext,
    strField "text" a.Text,
    omitStr "image_url" a.ImageURL,
    omitStr "thumb_url" a.ThumbURL,
    omitSlice "fields" AttachmentField.toJSON a.Fields,
    omitSlice "actions" AttachmentAction.toJSON a.Actions,
    omitSlice "mrkdwn_in" JSON.str a.MarkdownIn,
    omitStr "footer" a.Footer,
    omitStr "footer_icon" a.FooterIcon,
    omitInt "ts" a.Ts])

/-- `json.Marshal` of a `Payload` (lines 107 to 119), as a document. -/
def Payload.toJSON (p : Payload) : JSON :=
  .obj (members [
    omitStr "parse" p.Parse,
    omitStr "username" p.Username,
    omitStr "icon_url" p.IconUrl,
    omitStr "icon_emoji" p.IconEmoji,
    omitStr "channel" p.Channel,
    omitStr "text" p.Text,
    omitStr "link_names" p.LinkNames,
    omitSlice "attachments" Attachment.toJSON p.Attachments,
    omitBool "unfurl_links" p.UnfurlLinks,
    omitBool "unfurl_media" p.UnfurlMedia,
    omitBool "mrkdwn" p.Markdown])

/-- An `error` value, identified by its message (the result of its method `Error`). -/
structure GoError where
  Error : GoString
  deriving DecidableEq

/-- `json.Marshal(payload)`: the bytes of the document. Encoding never fails on these
structures (they hold only strings, integers, booleans and slices of such structs). -/
def json.Marshal (payload : Payload) : Except GoError GoString :=
  .ok (render payload.toJSON)

/-! ## `json.Unmarshal` into the data model

The reader of a document: each struct field takes the value of the member under its key
(the last one, if the key is repeated), a missing member or `null` leaves the zero value,
a member of the wrong JSON type is an error, unknown keys are skipped. Keys are compared
exactly; `encoding/json` also accepts a key that differs in letter case only, which makes
no difference on the documents `json.Marshal` writes. A string read back is the string the
text denotes, `coerceUTF8` of the string that was written. -/

/-- The value of the member of an object under a key; the last one wins. -/
def JSON.get (key : String) : List (String × JSON) → Option JSON
  | [] => none
  | (k, v) :: rest => (JSON.get key rest).or (if k = key then some v else none)

/-- Reads a `string` field. -/
def decodeString : Option JSON → Option GoString
  | none => some []
  | some .null => some []
  | some (.str s) => some (coerceUTF8 s)
  | some _ => none

/-- Reads an `int` or `int64` field. -/
def decodeInt : Option JSON → Option Int
  | none => some 0
  | some .null => some 0
  | some (.num n) => some n
  | some _ => none

/-- Reads a `bool` field. -/
def decodeBool : Option JSON → Option Bool
  | none => some false
  | some .null => some false
  | some (.bool b) => some b
  | some _ => none

/-- Reads the elements of an array, in order. -/
def decodeElems {α : Type} (f : JSON → Option α) : List JSON → Option (List α)
  | [] => some []
  | x :: rest =>
    match f x, decodeElems f rest with
    | some a, some as => some (a :: as)
    | _, _ => none

/-- Reads a slice field: an array gives a non-nil slice, also when it is empty. -/
def decodeSlice {α : Type} (f : JSON → Option α) : Option JSON → Option (Option (List α))
  | none => some none
  | some .null => some none
  | some (.arr elems) => (decodeElems f elems).map some
  | some _ => none

/-- Sequencing of the field readers: the first error ends the reading. -/
@[noinline] def andThen {α β : Type} : Option α → (α → Option β) → Option β
  | none, _ => none
  | some a, f => f a

/-- `json.Unmarshal` into an `AttachmentField`. -/
def AttachmentField.ofJSON : JSON → Option AttachmentField
  | .null => some {}
  | .obj ms =>
    andThen (decodeString (JSON.get "title" ms)) fun title =>
    andThen (decodeString (JSON.get "value" ms)) fun value =>
    andThen (decodeBool (JSON.get "short" ms)) fun short =>
    some { Title := title, Value := value, Short := short }
  | _ => none

/-- `json.Unmarshal` into an `AttachmentActionOption`. -/
def AttachmentActionOption.ofJSON : JSON → Option AttachmentActionOption
  | .null => some {}
  | .obj ms =>
    andThen (decodeString (JSON.get "text" ms)) fun text =>
    andThen (decodeString (JSON.get "value" ms)) fun value =>
    andThen (decodeString (JSON.get "description" ms)) fun description =>
    some { Text := text, Value := value, Description := description }
  | _ => none

/-- `json.Unmarshal` into an `AttachmentActionOptionGroup`. -/
def AttachmentActionOptionGroup.ofJSON : JSON → Option AttachmentActionOptionGroup
  | .null => some {}
  | .obj ms =>
    andThen (decodeString (JSON.get "text" ms)) fun text =>
    andThen (decodeSlice AttachmentActionOption.ofJSON (JSON.get "options" ms)) fun options =>
    some { Text := text, Options := options }
  | _ => none

/-- `json.Unmarshal` into a `ConfirmationField`. -/
def ConfirmationField.ofJSON : JSON → Option ConfirmationField
  | .null => some {}
  | .obj ms =>
    andThen (decodeString (JSON.get "title" ms)) fun title =>
    andThen (decodeString (JSON.get "text" ms)) fun text =>
    andThen (decodeString (JSON.get "ok_text" ms)) fun okText =>
    andThen (decodeString (JSON.get "dismiss_text" ms)) fun dismissText =>
    some { Title := title, Text := text, OkText := okText, DismissText := dismissText }
  | _ => none

/-- `json.Unmarshal` into an `AttachmentAction`. -/
def AttachmentAction.ofJSON : JSON → Option AttachmentAction
  | .null => some {}
  | .obj ms =>
    andThen (decodeString (JSON.get "name" ms)) fun name =>
    andThen (decodeString (JSON.get "text" ms)) fun text =>
    andThen (decodeString (JSON.get "style" ms)) fun style =>
    andThen (decodeString (JSON.get "type" ms)) fun type =>
    andThen (decodeString (JSON.get "value" ms)) fun value =>
    andThen (decodeString (JSON.get "data_source" ms)) fun dataSource =>
    andThen (decodeInt (JSON.get "min_query_length" ms)) fun minQueryLength =>
    andThen (decodeSlice AttachmentActionOption.ofJSON (JSON.get "options" ms)) fun options =>
    andThen (decodeSlice AttachmentActionOption.ofJSON (JSON.get "selected_options" ms)) fun selected =>
    andThen (decodeSlice AttachmentActionOptionGroup.ofJSON (JSON.get "option_groups" ms)) fun groups =>
    andThen (decodeSlice ConfirmationField.ofJSON (JSON.get "confirm" ms)) fun confirm =>
    andThen (decodeString (JSON.get "url" ms)) fun url =>
    some { Name := name, Text := text, Style := style, Type_ := type, Value := value,
           DataSource := dataSource, MinQueryLength := minQueryLength, Options := options,
           SelectedOptions := selected, OptionGroups := groups, Confirm := confirm,
           URL := url }
  | _ => none

/-- `json.Unmarshal` into an `Attachment`. -/
def Attachment.ofJSON : JSON → Option Attachment
  | .null => some {}
  | .obj ms =>
    andThen (decodeString (JSON.get "color" ms)) fun color =>
    andThen (decodeString (JSON.get "fallback" ms)) fun fallback =>
    andThen (decodeString (JSON.get "callback_id" ms)) fun callbackID =>
    andThen (decodeInt (JSON.get "id" ms)) fun id =>
    andThen (decodeString (JSON.get "author_id" ms)) fun authorID =>
    andThen (decodeString (JSON.get "author_name" ms)) fun authorName =>
    andThen (decodeString (JSON.get "author_subname" ms)) fun authorSubname =>
    andThen (decodeString (JSON.get "author_link" ms)) fun authorLink =>
    andThen (decodeString (JSON.get "author_icon" ms)) fun authorIcon =>
    andThen (decodeString (JSON.get "title" ms)) fun title =>
    andThen (decodeString (JSON.get "title_link" ms)) fun titleLink =>
    andThen (decodeString (JSON.get "pretext" ms)) fun pretext =>
    andThen (decodeString (JSON.get "text" ms)) fun text =>
    andThen (decodeString (JSON.get "image_url" ms)) fun imageURL =>
    andThen (decodeString (JSON.get "thumb_url" ms)) fun thumbURL =>
    andThen (decodeSlice AttachmentField.ofJSON (JSON.get "fields" ms)) fun fields =>
    andThen (decodeSlice AttachmentAction.ofJSON (JSON.get "actions" ms)) fun actions =>
    andThen (decodeSlice (fun j => decodeString (some j)) (JSON.get "mrkdwn_in" ms)) fun markdownIn =>
    andThen (decodeString (JSON.get "footer" ms)) fun footer =>
    andThen (decodeString (JSON.get "footer_icon" ms)) fun footerIcon =>
    andThen (decodeInt (JSON.get "ts" ms)) fun ts =>
    some { Color := color, Fallback := fallback, CallbackID := callbackID, ID := id,
           AuthorID := authorID, AuthorName := authorName, AuthorSubname := authorSubname,
           AuthorLink := authorLink, AuthorIcon := authorIcon, Title := title,
           TitleLink := titleLink, Pretext := pretext, Text := text, ImageURL := imageURL,
           ThumbURL := thumbURL, Fields := fields, Actions := actions,
           MarkdownIn := markdownIn, Footer := footer, FooterIcon := footerIcon, Ts := ts }
  | _ => none

/-- `json.Unmarshal` of a document into a fresh `Payload`. -/
def Payload.ofJSON : JSON → Option Payload
  | .null => some {}
  | .obj ms =>
    andThen (decodeString (JSON.get "parse" ms)) fun parse =>
    andThen (decodeString (JSON.get "username" ms)) fun username =>
    andThen (decodeString (JSON.get "icon_url" ms)) fun iconUrl =>
    andThen (decodeString (JSON.get "icon_emoji" ms)) fun iconEmoji =>
    andThen (decodeString (JSON.get "channel" ms)) fun channel =>
    andThen (decodeString (JSON.get "text" ms)) fun text =>
    andThen (decodeString (JSON.get "link_names" ms)) fun linkNames =>
    andThen (decodeSlice Attachment.ofJSON (JSON.get "attachments" ms)) fun attachments =>
    andThen (decodeBool (JSON.get "unfurl_links" ms)) fun unfurlLinks =>
    andThen (decodeBool (JSON.get "unfurl_media" ms)) fun unfurlMedia =>
    andThen (decodeBool (JSON.get "mrkdwn" ms)) fun markdown =>
    some { Parse := parse, Username := username, IconUrl := iconUrl, IconEmoji := iconEmoji,
           Channel := channel, Text := text, LinkNames := linkNames,
           Attachments := attachments, UnfurlLinks := unfurlLinks,
           UnfurlMedia := unfurlMedia, Markdown := markdown }
  | _ => none

/-! ### Values that a round trip through JSON leaves unchanged -/

/-- A slice without `omitempty` comes back as it was when its elements do. -/
def sliceStable {α : Type} (p : α → Bool) : Option (List α) → Bool
  | none => true
  | some xs => xs.all p

/-- A slice tagged `omitempty` comes back as it was when its elements do and it is not
an empty non-nil slice (that one is left out and read back as `nil`). -/
def omitSliceStable {α : Type} (p : α → Bool) : Option (List α) → Bool
  | none => true
  | some [] => false
  | some (x :: xs) => (x :: xs).all p

/-- Every string of the field is valid UTF-8. -/
def AttachmentField.stable (f : AttachmentField) : Bool :=
  validString f.Title && validString f.Value

/-- Every string of the option is valid UTF-8. -/
def AttachmentActionOption.stable (o : AttachmentActionOption) : Bool :=
  validString o.Text && validString o.Value && validString o.Description

/-- Every string of the group is valid UTF-8. -/
def AttachmentActionOptionGroup.stable (g : AttachmentActionOptionGroup) : Bool :=
  validString g.Text && sliceStable AttachmentActionOption.stable g.Options

/-- Every string of the confirmation is valid UTF-8. -/
def ConfirmationField.stable (c : ConfirmationField) : Bool :=
  validString c.Title && validString c.Text && validString c.OkText
    && validString c.DismissText

/-- Every string of the action is valid UTF-8 and no `omitempty` slice in it is empty
without being `nil`. -/
def AttachmentAction.stable (a : AttachmentAction) : Bool :=
  validString a.Name && validString a.Text && validString a.Style && validString a.Type_
    && validString a.Value && validString a.DataSource
    && omitSliceStable AttachmentActionOption.stable a.Options
    && omitSliceStable AttachmentActionOption.stable a.SelectedOptions
    && omitSliceStable AttachmentActionOptionGroup.stable a.OptionGroups
    && omitSliceStable ConfirmationField.stable a.Confirm
    && validString a.URL

/-- Every string of the attachment is valid UTF-8 and no `omitempty` slice in it is empty
without being `nil`. -/
def Attachment.stable (a : Attachment) : Bool :=
  validString a.Color && validString a.Fallback && validString a.CallbackID
    && validString a.AuthorID && validString a.AuthorName && validString a.AuthorSubname
    && validString a.AuthorLink && validString a.AuthorIcon && validString a.Title
    && validString a.TitleLink && validString a.Pretext && validString a.Text
    && validString a.ImageURL && validString a.ThumbURL
    && omitSliceStable AttachmentField.stable a.Fields
    && omitSliceStable AttachmentAction.stable a.Actions
    && omitSliceStable validString a.MarkdownIn
    && validString a.Footer && validString a.FooterIcon

/-- Every string of the payload, at every level, is valid UTF-8 and no `omitempty` slice in
it is empty without being `nil`. -/
def Payload.stable (p : Payload) : Bool :=
  validString p.Parse && validString p.Username && validString p.IconUrl
    && validString p.IconEmoji && validString p.Channel && validString p.Text
    && validString p.LinkNames && omitSliceStable Attachment.stable p.Attachments

/-! ## Errors, formatting and the network

The HTTP exchange is the environment of the program. It is a parameter `net` of the
delivery functions; the requests handed to the network are returned next to the Go result,
in the order in which they are issued. -/

/-- `errors.New(text)`. -/
def errors.New (text : GoString) : GoError := ⟨text⟩

/-- `fmt.Sprintf` for the formats of this program: plain text and the verb `%v` applied to
a string, which prints the string as it is. -/
def fmt.Sprintf : GoString → List GoString → GoString
  | [], _ => []
  | [b], _ => [b]
  | b :: c :: rest, args =>
    if b = 0x25 ∧ c = 0x76 then
      match args with
      | [] => lit "%!v(MISSING)" ++ fmt.Sprintf rest []
      | a :: more => a ++ fmt.Sprintf rest more
    else b :: fmt.Sprintf (c :: rest) args

/-- `fmt.Errorf(format, args...)`: an error whose message is the formatted text. -/
def fmt.Errorf (format : GoString) (args : List GoString) : GoError :=
  ⟨fmt.Sprintf format args⟩

/-- The body of a response, as a reader: the bytes it delivers, and the error that ends the
reading when it is not the end of the body. -/
structure ResponseBody where
  data : GoString := []
  err : Option GoError := none

/-- `ioutil.ReadAll`: everything read, and the read error if there is one. -/
def ioutil.ReadAll (body : ResponseBody) : GoString × Option GoError := (body.data, body.err)

/-- An HTTP response (`http.Response`, `gorequest.Response`). `Location` is the target of
the `Location` header, empty when the header is absent. -/
structure Response where
  StatusCode : Int
  Status : GoString := []
  Location : GoString := []
  Body : ResponseBody := {}

/-- What a request carries: nothing, bytes under a content type, or the payload value that
`gorequest` was given with `Send(payload)` and encodes as JSON itself. -/
inductive Content where
  | empty : Content
  | bytes (contentType body : GoString) : Content
  | data (payload : Payload) : Content

/-- An HTTP request as it is handed to the network. -/
structure Request where
  Method : GoString
  URL : GoString
  Proxy : Option GoString := none
  Content : Content := .empty

/-- The environment: the outcome of one HTTP exchange (a response, or a transport failure),
which strings `url.Parse` rejects, and the `*url.Error` that `net/http` wraps around the
error of a failed request. -/
structure Net where
  RoundTrip : Request → Except GoError Response
  ParseURL : GoString → Option GoError
  URLError : GoString → GoString → GoError → GoError

/-- `url.Parse`: the empty string always parses. -/
def url.Parse (net : Net) (rawurl : GoString) : Option GoError :=
  if rawurl.length = 0 then none else net.ParseURL rawurl

/-- The responses that `net/http` treats as a redirect to follow: 301, 302, 303, 307 and
308 with a `Location` (the requests of this program have a body that can be sent again). -/
def isRedirect (resp : Response) : Bool :=
  (resp.StatusCode = 301 || resp.StatusCode = 302 || resp.StatusCode = 303
    || resp.StatusCode = 307 || resp.StatusCode = 308) && resp.Location.length != 0

/-- The request that follows a redirect: to the `Location`; 307 and 308 keep method and
body, the others turn anything but `GET` and `HEAD` into a `GET` without body. -/
def redirectRequest (req : Request) (resp : Response) : Request :=
  if resp.StatusCode = 307 ∨ resp.StatusCode = 308 then { req with URL := resp.Location }
  else if req.Method = lit "GET" ∨ req.Method = lit "HEAD" then
    { req with URL := resp.Location, Content := .empty }
  else { req with URL := resp.Location, Method := lit "GET", Content := .empty }

/-- `http.Client.Do` with the redirect policy `checkRedirect`: the exchange is made; on a
redirect the policy is asked about the next request, given the requests made so far; if it
returns an error, that error (as a `*url.Error`) is the result and the next request is not
issued, otherwise the next request is issued in turn. `fuel` bounds the number of
exchanges. -/
def http.clientDo (net : Net) (checkRedirect : Request → List Request → Option GoError) :
    Nat → Request → List Request → Except GoError Response × List Request
  | 0, req, _ => (.error (net.URLError req.Method req.URL ⟨lit "too many redirects"⟩), [])
  | fuel + 1, req, via =>
    match net.RoundTrip req with
    | .error err => (.error (net.URLError req.Method req.URL err), [req])
    | .ok resp =>
      if isRedirect resp then
        match checkRedirect (redirectRequest req resp) (via ++ [req]) with
        | some err => (.error (net.URLError req.Method resp.Location err), [req])
        | none =>
          let next := http.clientDo net checkRedirect fuel (redirectRequest req resp)
            (via ++ [req])
          (next.1, req :: next.2)
      else (.ok resp, [req])

/-- The policy of `http.DefaultClient`: stop after 10 consecutive requests. -/
def http.defaultCheckRedirect (_req : Request) (via : List Request) : Option GoError :=
  if via.length ≥ 10 then some (errors.New (lit "stopped after 10 redirects")) else none

/-- The request `http.Post` makes: a `POST` of the bytes under the content type. -/
def http.postRequest (target contentType body : GoString) : Request :=
  { Method := lit "POST", URL := target, Content := .bytes contentType body }

/-- `http.Post(url, contentType, body)` with the default client. The default policy ends
the chain before the tenth redirect is followed, so ten exchanges are all there can be. -/
def http.Post (net : Net) (target contentType body : GoString) :
    Except GoError Response × List Request :=
  match url.Parse net target with
  | some err => (.error err, [])
  | none =>
    http.clientDo net http.defaultCheckRedirect 10 (http.postRequest target contentType body) []

/-- The request builder of `gorequest` (`SuperAgent`), with the fields this program
touches. -/
structure SuperAgent where
  Url : GoString := []
  Method : GoString := []
  ProxyURL : Option GoString := none
  Data : Option Payload := none
  CheckRedirect : Request → List Request → Option GoError := http.defaultCheckRedirect
  Errors : List GoError := []

/-- `gorequest.New()`. -/
def gorequest.New : SuperAgent := {}

/-- `SuperAgent.Proxy(proxyUrl)`: a string that does not parse is recorded as an error, the
empty string means no proxy. -/
def SuperAgent.Proxy (s : SuperAgent) (net : Net) (proxyUrl : GoString) : SuperAgent :=
  match url.Parse net proxyUrl with
  | some err => { s with Errors := s.Errors ++ [err] }
  | none =>
    if proxyUrl.length = 0 then { s with ProxyURL := none }
    else { s with ProxyURL := some proxyUrl }

/-- `SuperAgent.Post(targetUrl)`: starts a new request; data and errors of the builder are
cleared, client and transport settings are kept. -/
def SuperAgent.Post (s : SuperAgent) (targetUrl : GoString) : SuperAgent :=
  { s with Method := lit "POST", Url := targetUrl, Data := none, Errors := [] }

/-- `SuperAgent.RedirectPolicy(policy)`: installs the policy as `CheckRedirect`. -/
def SuperAgent.RedirectPolicy (s : SuperAgent)
    (policy : Request → List Request → Option GoError) : SuperAgent :=
  { s with CheckRedirect := policy }

/-- `SuperAgent.Send(content)` for a struct: the value becomes the data of the request. -/
def SuperAgent.Send (s : SuperAgent) (content : Payload) : SuperAgent :=
  { s with Data := some content }

/-- The request a builder stands for. -/
def SuperAgent.request (s : SuperAgent) : Request :=
  { Method := s.Method, URL := s.Url, Proxy := s.ProxyURL,
    Content := match s.Data with
      | none => .empty
      | some payload => .data payload }

/-- `SuperAgent.End()`: recorded errors are returned without any exchange; else the
request is made and the whole body is read; the result is the response with its body, or
the list of errors (never empty). -/
def SuperAgent.End (s : SuperAgent) (net : Net) (fuel : Nat) :
    Except (List GoError) (Response × GoString) × List Request :=
  if s.Errors.length ≠ 0 then (.error s.Errors, [])
  else
    match url.Parse net s.Url with
    | some err => (.error (s.Errors ++ [err]), [])
    | none =>
      match http.clientDo net s.CheckRedirect fuel s.request [] with
      | (.error err, issued) => (.error (s.Errors ++ [err]), issued)
      | (.ok resp, issued) =>
        match ioutil.ReadAll resp.Body with
        | (_, some err) => (.error [err], issued)
        | (body, none) => (.ok (resp, body), issued)

/-! ## Delivery (`main.go`, lines 126 to 165) -/

/-- Go function `redirectPolicyFunc` (lines 126 to 128). -/
def redirectPolicyFunc (_req : Request) (_via : List Request) : Option GoError :=
  some (fmt.Errorf (lit "Incorrect token (redirection)") [])

/-- The builder `Send` runs `End` on (lines 131 to 135). -/
def sendAgent (net : Net) (webhookUrl proxy : GoString) (payload : Payload) : SuperAgent :=
  let request := gorequest.New.Proxy net proxy
  ((request.Post webhookUrl).RedirectPolicy redirectPolicyFunc).Send payload

/-- Go function `Send` (lines 130 to 146): the returned `[]error` (`[]` is `nil`), and the
requests issued. `fuel` bounds the number of exchanges `End` may make. -/
def Send (net : Net) (fuel : Nat) (webhookUrl proxy : GoString) (payload : Payload) :
    List GoError × List Request :=
  match (sendAgent net webhookUrl proxy payload).End net fuel with
  | (.error err, issued) => (err, issued)
  | (.ok (resp, _), issued) =>
    if resp.StatusCode ≥ 400 then
      ([fmt.Errorf (lit "Error sending msg. Status: %v") [resp.Status]], issued)
    else ([], issued)

/-- Go function `PostMessage` (lines 148 to 165): the returned `error`, and the requests
issued. -/
def PostMessage (net : Net) (webhookUrl : GoString) (payload : Payload) :
    Option GoError × List Request :=
  match json.Marshal payload with
  | .error err => (some err, [])
  | .ok body =>
    match http.Post net webhookUrl (lit "application/json") body with
    | (.error err, issued) => (some err, issued)
    | (.ok resp, issued) =>
      if resp.StatusCode ≠ 200 then
        let t := (ioutil.ReadAll resp.Body).1
        (some (errors.New t), issued)
      else (none, issued)

/-! ## Reading a document as a list of members -/

/-- The members of an object, in document order; none for any other value. -/
def JSON.members : JSON → List (String × JSON)
  | .obj ms => ms
  | _ => []

/-- The keys that appear in an object, in document order. -/
def JSON.keys (j : JSON) : List String := j.members.map Prod.fst

/-- The values that `omitempty` is there to keep out of a document: `null`, `false`, `0`,
the empty string and the empty array. -/
def JSON.isEmptyValue : JSON → Bool
  | .null => true
  | .bool b => !b
  | .num n => n == 0
  | .str s => s.isEmpty
  | .arr elems => elems.isEmpty
  | .obj _ => false

/-! ## Sample values -/

/-- A payload with an attachment that carries fields, a button with a confirmation, a menu
with options and option groups, and non-ASCII text. -/
def samplePayload : Payload :=
  { Username := lit "bot", Channel := lit "#général", Text := lit "déploiement ✓",
    UnfurlLinks := true,
    Attachments := some [
      { Fallback := lit "build 42", Text := lit "<ok> & done", Color := lit "#36a64f",
        ID := 7, Ts := -3,
        Fields := some [{ Title := lit "env", Value := lit "prod", Short := true },
                        { Title := lit "env", Value := lit "staging" }],
        MarkdownIn := some [lit "text", lit "pretext"],
        Actions := some [
          { Name := lit "approve", Text := lit "Approve", Type_ := lit "button",
            Style := lit "primary",
            Confirm := some [{ Text := lit "Sure?", OkText := lit "Yes" }] },
          { Name := lit "pick", Text := lit "Pick", Type_ := lit "select",
            MinQueryLength := 2,
            Options := some [{ Text := lit "a", Value := lit "1" },
                             { Text := lit "b", Value := lit "2", Description := lit "two" }],
            OptionGroups := some [{ Text := lit "g", Options := some [] },
                                  { Text := lit "h", Options := none }] }] },
      { Fallback := [], Text := [] }] }

/-- A network on which every URL parses and every exchange is answered by `resp`;
errors are passed on as they are. -/
def Net.answering (resp : Response) : Net :=
  { RoundTrip := fun _ => .ok resp, ParseURL := fun _ => none, URLError := fun _ _ err => err }

/-- A webhook URL. -/
def sampleURL : GoString := lit "https://hooks.example.com/services/T0/B0/x"

/-- A payload whose single attachment carries six actions. -/
def sixActions : Payload :=
  { Attachments := some [
      { Fallback := lit "pick one", Text := lit "pick one",
        Actions := some (List.replicate 6
          { Name := lit "b", Text := lit "B", Type_ := lit "button" }) }] }

/-- Response `200 OK` with body `ok`. -/
def resp200 : Response :=
  { StatusCode := 200, Status := lit "200 OK", Body := { data := lit "ok" } }

/-- Response `204 No Content`, without body. -/
def resp204 : Response := { StatusCode := 204, Status := lit "204 No Content" }

/-- Response `302 Found` that points to another host. -/
def resp302 : Response :=
  { StatusCode := 302, Status := lit "302 Found",
    Location := lit "https://elsewhere.example.com/" }

/-- Response `404 Not Found` with body `channel_not_found`. -/
def resp404 : Response :=
  { StatusCode := 404, Status := lit "404 Not Found",
    Body := { data := lit "channel_not_found" } }

/-- Response `500 Internal Server Error` with body `internal_error`. -/
def resp500 : Response :=
  { StatusCode := 500, Status := lit "500 Internal Server Error",
    Body := { data := lit "internal_error" } }

/-! # Theorems -/

/-! ## Lemmas on strings -/

theorem coerceUTF8Aux_of_valid (fuel : Nat) :
    ∀ s : GoString, validStringAux fuel s = true → coerceUTF8Aux fuel s = s := by
  induction fuel with
  | zero =>
    intro s h
    cases s with
    | nil => rfl
    | cons b rest => simp [validStringAux] at h
  | succ fuel ih =>
    intro s h
    cases s with
    | nil => rfl
    | cons b rest =>
      simp only [validStringAux] at h
      simp only [coerceUTF8Aux]
      cases hr : runeLen (b :: rest) with
      | none => rw [hr] at h; simp at h
      | some n =>
        rw [hr] at h
        simp only at h ⊢
        rw [ih _ h, List.take_append_drop]

theorem coerceUTF8_of_valid (s : GoString) (h : validString s = true) : coerceUTF8 s = s :=
  coerceUTF8Aux_of_valid s.length s h

/-! ## Lemmas on reading members -/

@[simp] theorem andThen_some {α β : Type} (a : α) (f : α → Option β) :
    andThen (some a) f = f a := rfl

@[simp] theorem get_nil (k : String) : JSON.get k [] = none := rfl

theorem get_append (k : String) (m r : List (String × JSON)) :
    JSON.get k (m ++ r) = (JSON.get k r).or (JSON.get k m) := by
  induction m with
  | nil => simp [Option.or_none]
  | cons kv m ih =>
    obtain ⟨k', v⟩ := kv
    simp only [List.cons_append, JSON.get, List.append_eq, ih, Option.or_assoc]

@[simp] theorem get_members_nil (k : String) : JSON.get k (members []) = none := rfl

@[simp] theorem get_members_cons (k : String) (m : List (String × JSON))
    (rest : List (List (String × JSON))) :
    JSON.get k (members (m :: rest)) = (JSON.get k (members rest)).or (JSON.get k m) := by
  simp only [members, get_append]

@[simp] theorem get_strField (k key : String) (s : GoString) :
    JSON.get k (strField key s) = if key = k then some (.str s) else none := rfl

@[simp] theorem get_boolField (k key : String) (b : Bool) :
    JSON.get k (boolField key b) = if key = k then some (.bool b) else none := rfl

@[simp] theorem get_sliceField {α : Type} (k key : String) (f : α → JSON)
    (xs : Option (List α)) :
    JSON.get k (sliceField key f xs) =
      if key = k then some (sliceValue f xs) else none := rfl

@[simp] theorem get_omitStr (k key : String) (s : GoString) :
    JSON.get k (omitStr key s) =
      if key = k then (if s = [] then none else some (.str s)) else none := by
  unfold omitStr; cases s <;> simp [JSON.get]

@[simp] theorem get_omitInt (k key : String) (n : Int) :
    JSON.get k (omitInt key n) =
      if key = k then (if n = 0 then none else some (.num n)) else none := by
  unfold omitInt; split <;> simp [JSON.get]

@[simp] theorem get_omitBool (k key : String) (b : Bool) :
    JSON.get k (omitBool key b) =
      if key = k then (if b = false then none else some (.bool b)) else none := by
  unfold omitBool; split <;> simp [JSON.get]

@[simp] theorem get_omitSlice {α : Type} (k key : String) (f : α → JSON)
    (xs : Option (List α)) :
    JSON.get k (omitSlice key f xs) =
      if key = k then (if len xs = 0 then none else some (.arr ((xs.getD []).map f)))
      else none := by
  unfold omitSlice; split <;> simp [JSON.get]


/-! ## Lemmas on reading values back -/

theorem decodeString_str (s : GoString) (h : validString s = true) :
    decodeString (some (.str s)) = some s := by
  simp [decodeString, coerceUTF8_of_valid s h]

theorem decodeString_omit (s : GoString) (h : validString s = true) :
    decodeString (if s = [] then none else some (.str s)) = some s := by
  split
  · rename_i h0
    simp [decodeString, h0]
  · exact decodeString_str s h

theorem decodeInt_omit (n : Int) :
    decodeInt (if n = 0 then none else some (.num n)) = some n := by
  split
  · rename_i h0; simp [decodeInt, h0]
  · rfl

theorem decodeBool_omit (b : Bool) :
    decodeBool (if b = false then none else some (.bool b)) = some b := by
  cases b <;> rfl

theorem decodeElems_map {α : Type} (f : JSON → Option α) (g : α → JSON) (p : α → Bool)
    (hfg : ∀ x, p x = true → f (g x) = some x) :
    ∀ xs : List α, xs.all p = true → decodeElems f (xs.map g) = some xs := by
  intro xs
  induction xs with
  | nil => intro _; rfl
  | cons x xs ih =>
    intro h
    simp only [List.all_cons, Bool.and_eq_true] at h
    simp [decodeElems, hfg x h.1, ih h.2]

theorem decodeSlice_field {α : Type} (f : JSON → Option α) (g : α → JSON) (p : α → Bool)
    (hfg : ∀ x, p x = true → f (g x) = some x) (xs : Option (List α))
    (h : sliceStable p xs = true) :
    decodeSlice f (some (sliceValue g xs)) = some xs := by
  cases xs with
  | none => rfl
  | some l => simp [sliceValue, decodeSlice, decodeElems_map f g p hfg l h]

theorem decodeSlice_omit {α : Type} (f : JSON → Option α) (g : α → JSON) (p : α → Bool)
    (hfg : ∀ x, p x = true → f (g x) = some x) (xs : Option (List α))
    (h : omitSliceStable p xs = true) :
    decodeSlice f (if len xs = 0 then none else some (.arr ((xs.getD []).map g)))
      = some xs := by
  cases xs with
  | none => rfl
  | some l =>
    cases l with
    | nil => simp [omitSliceStable] at h
    | cons x l =>
      have := decodeElems_map f g p hfg (x :: l) h
      simp only [List.map_cons] at this
      simp [len, decodeSlice, this]

/-! ## Round trip, structure by structure -/

theorem AttachmentField_ofJSON_toJSON (f : AttachmentField) (h : f.stable = true) :
    AttachmentField.ofJSON f.toJSON = some f := by
  cases f
  simp only [AttachmentField.stable, Bool.and_eq_true] at h
  simp [AttachmentField.toJSON, AttachmentField.ofJSON, decodeString_str, decodeBool, h]

theorem AttachmentActionOption_ofJSON_toJSON (o : AttachmentActionOption)
    (h : o.stable = true) : AttachmentActionOption.ofJSON o.toJSON = some o := by
  cases o
  simp only [AttachmentActionOption.stable, Bool.and_eq_true] at h
  simp [AttachmentActionOption.toJSON, AttachmentActionOption.ofJSON, decodeString_str,
    decodeString_omit, h]

theorem AttachmentActionOptionGroup_ofJSON_toJSON (g : AttachmentActionOptionGroup)
    (h : g.stable = true) : AttachmentActionOptionGroup.ofJSON g.toJSON = some g := by
  cases g
  simp only [AttachmentActionOptionGroup.stable, Bool.and_eq_true] at h
  simp [AttachmentActionOptionGroup.toJSON, AttachmentActionOptionGroup.ofJSON,
    decodeString_str, h,
    decodeSlice_field _ _ _ AttachmentActionOption_ofJSON_toJSON _ h.2]

theorem ConfirmationField_ofJSON_toJSON (c : ConfirmationField) (h : c.stable = true) :
    ConfirmationField.ofJSON c.toJSON = some c := by
  cases c
  simp only [ConfirmationField.stable, Bool.and_eq_true] at h
  simp [ConfirmationField.toJSON, ConfirmationField.ofJSON, decodeString_str,
    decodeString_omit, h]

theorem AttachmentAction_ofJSON_toJSON (a : AttachmentAction) (h : a.stable = true) :
    AttachmentAction.ofJSON a.toJSON = some a := by
  cases a
  simp only [AttachmentAction.stable, Bool.and_eq_true] at h
  simp [AttachmentAction.toJSON, AttachmentAction.ofJSON, decodeString_str,
    decodeString_omit, decodeInt_omit, h,
    decodeSlice_omit _ _ _ AttachmentActionOption_ofJSON_toJSON _ h.1.1.1.1.2,
    decodeSlice_omit _ _ _ AttachmentActionOption_ofJSON_toJSON _ h.1.1.1.2,
    decodeSlice_omit _ _ _ AttachmentActionOptionGroup_ofJSON_toJSON _ h.1.1.2,
    decodeSlice_omit _ _ _ ConfirmationField_ofJSON_toJSON _ h.1.2]

theorem Attachment_ofJSON_toJSON (a : Attachment) (h : a.stable = true) :
    Attachment.ofJSON a.toJSON = some a := by
  cases a
  simp only [Attachment.stable, Bool.and_eq_true] at h
  simp [Attachment.toJSON, Attachment.ofJSON, decodeString_str,
    decodeString_omit, decodeInt_omit, h,
    decodeSlice_omit _ _ _ AttachmentField_ofJSON_toJSON _ h.1.1.1.1.2,
    decodeSlice_omit _ _ _ AttachmentAction_ofJSON_toJSON _ h.1.1.1.2,
    decodeSlice_omit (fun j => decodeString (some j)) JSON.str validString
      decodeString_str _ h.1.1.2]

theorem Payload_ofJSON_toJSON (p : Payload) (h : p.stable = true) :
    Payload.ofJSON p.toJSON = some p := by
  cases p
  simp only [Payload.stable, Bool.and_eq_true] at h
  simp [Payload.toJSON, Payload.ofJSON, decodeString_omit, decodeBool_omit, h,
    decodeSlice_omit _ _ _ Attachment_ofJSON_toJSON _ h.2]


/-! ## The keys and members of a serialized struct -/

theorem mem_members_nil (x : String × JSON) : x ∈ members [] ↔ False := by
  simp [members]

theorem mem_members_cons (x : String × JSON) (m : List (String × JSON))
    (rest : List (List (String × JSON))) :
    x ∈ members (m :: rest) ↔ x ∈ m ∨ x ∈ members rest := by
  simp [members]

theorem mem_strField (x : String × JSON) (key : String) (s : GoString) :
    x ∈ strField key s ↔ x = (key, .str s) := by
  simp [strField]

theorem mem_boolField (x : String × JSON) (key : String) (b : Bool) :
    x ∈ boolField key b ↔ x = (key, .bool b) := by
  simp [boolField]

theorem mem_sliceField {α : Type} (x : String × JSON) (key : String) (f : α → JSON)
    (xs : Option (List α)) :
    x ∈ sliceField key f xs ↔ x = (key, sliceValue f xs) := by
  simp [sliceField]

theorem mem_omitStr (x : String × JSON) (key : String) (s : GoString) :
    x ∈ omitStr key s ↔ s ≠ [] ∧ x = (key, .str s) := by
  unfold omitStr; cases s <;> simp

theorem mem_omitInt (x : String × JSON) (key : String) (n : Int) :
    x ∈ omitInt key n ↔ n ≠ 0 ∧ x = (key, .num n) := by
  unfold omitInt; split <;> simp [*]

theorem mem_omitBool (x : String × JSON) (key : String) (b : Bool) :
    x ∈ omitBool key b ↔ b = true ∧ x = (key, .bool true) := by
  unfold omitBool; cases b <;> simp

theorem mem_omitSlice {α : Type} (x : String × JSON) (key : String) (f : α → JSON)
    (xs : Option (List α)) :
    x ∈ omitSlice key f xs ↔ len xs ≠ 0 ∧ x = (key, .arr ((xs.getD []).map f)) := by
  unfold omitSlice; split <;> simp [*]

theorem len_eq_zero {α : Type} (xs : Option (List α)) : len xs = 0 ↔ xs.getD [] = [] := by
  cases xs <;> simp [len]

/-- C2: in the document `json.Marshal` writes, the key of a field tagged `omitempty` appears
exactly when the field is not zero (a non-empty string, `true`, a number other than 0, a
slice of positive length), and no such field is written with `null`, `false`, `0`, an empty
string or an empty array. This holds for the fields of `Payload`, the fields of
`Attachment` other than `fallback` and `text`, the fields of `AttachmentAction` other than
`name`, `text` and `type`, `description` of `AttachmentActionOption`, and the fields of
`ConfirmationField` other than `text`. The nested documents of a payload are the documents
of its nested values (`omitSlice`, `sliceField`), so the statement covers every level. -/
theorem omitempty_key_iff_nonzero (p : Payload) (a : Attachment) (c : AttachmentAction)
    (o : AttachmentActionOption) (f : ConfirmationField) :
    (("parse" ∈ p.toJSON.keys ↔ p.Parse ≠ [])
      ∧ ("username" ∈ p.toJSON.keys ↔ p.Username ≠ [])
      ∧ ("icon_url" ∈ p.toJSON.keys ↔ p.IconUrl ≠ [])
      ∧ ("icon_emoji" ∈ p.toJSON.keys ↔ p.IconEmoji ≠ [])
      ∧ ("channel" ∈ p.toJSON.keys ↔ p.Channel ≠ [])
      ∧ ("text" ∈ p.toJSON.keys ↔ p.Text ≠ [])
      ∧ ("link_names" ∈ p.toJSON.keys ↔ p.LinkNames ≠ [])
      ∧ ("attachments" ∈ p.toJSON.keys ↔ len p.Attachments ≠ 0)
      ∧ ("unfurl_links" ∈ p.toJSON.keys ↔ p.UnfurlLinks = true)
      ∧ ("unfurl_media" ∈ p.toJSON.keys ↔ p.UnfurlMedia = true)
      ∧ ("mrkdwn" ∈ p.toJSON.keys ↔ p.Markdown = true)
      ∧ (∀ k v, (k, v) ∈ p.toJSON.members → v.isEmptyValue = false))
    ∧ (("color" ∈ a.toJSON.keys ↔ a.Color ≠ [])
      ∧ ("callback_id" ∈ a.toJSON.keys ↔ a.CallbackID ≠ [])
      ∧ ("id" ∈ a.toJSON.keys ↔ a.ID ≠ 0)
      ∧ ("author_id" ∈ a.toJSON.keys ↔ a.AuthorID ≠ [])
      ∧ ("author_name" ∈ a.toJSON.keys ↔ a.AuthorName ≠ [])
      ∧ ("author_subname" ∈ a.toJSON.keys ↔ a.AuthorSubname ≠ [])
      ∧ ("author_link" ∈ a.toJSON.keys ↔ a.AuthorLink ≠ [])
      ∧ ("author_icon" ∈ a.toJSON.keys ↔ a.AuthorIcon ≠ [])
      ∧ ("title" ∈ a.toJSON.keys ↔ a.Title ≠ [])
      ∧ ("title_link" ∈ a.toJSON.keys ↔ a.TitleLink ≠ [])
      ∧ ("pretext" ∈ a.toJSON.keys ↔ a.Pretext ≠ [])
      ∧ ("image_url" ∈ a.toJSON.keys ↔ a.ImageURL ≠ [])
      ∧ ("thumb_url" ∈ a.toJSON.keys ↔ a.ThumbURL ≠ [])
      ∧ ("fields" ∈ a.toJSON.keys ↔ len a.Fields ≠ 0)
      ∧ ("actions" ∈ a.toJSON.keys ↔ len a.Actions ≠ 0)
      ∧ ("mrkdwn_in" ∈ a.toJSON.keys ↔ len a.MarkdownIn ≠ 0)
      ∧ ("footer" ∈ a.toJSON.keys ↔ a.Footer ≠ [])
      ∧ ("footer_icon" ∈ a.toJSON.keys ↔ a.FooterIcon ≠ [])
      ∧ ("ts" ∈ a.toJSON.keys ↔ a.Ts ≠ 0)
      ∧ (∀ k v, (k, v) ∈ a.toJSON.members → k ≠ "fallback" → k ≠ "text" → v.isEmptyValue = false))
    ∧ (("style" ∈ c.toJSON.keys ↔ c.Style ≠ [])
      ∧ ("value" ∈ c.toJSON.keys ↔ c.Value ≠ [])
      ∧ ("data_source" ∈ c.toJSON.keys ↔ c.DataSource ≠ [])
      ∧ ("min_query_length" ∈ c.toJSON.keys ↔ c.MinQueryLength ≠ 0)
      ∧ ("options" ∈ c.toJSON.keys ↔ len c.Options ≠ 0)
      ∧ ("selected_options" ∈ c.toJSON.keys ↔ len c.SelectedOptions ≠ 0)
      ∧ ("option_groups" ∈ c.toJSON.keys ↔ len c.OptionGroups ≠ 0)
      ∧ ("confirm" ∈ c.toJSON.keys ↔ len c.Confirm ≠ 0)
      ∧ ("url" ∈ c.toJSON.keys ↔ c.URL ≠ [])
      ∧ (∀ k v, (k, v) ∈ c.toJSON.members → k ≠ "name" → k ≠ "text" → k ≠ "type" → v.isEmptyValue = false))
    ∧ (("description" ∈ o.toJSON.keys ↔ o.Description ≠ [])
      ∧ (∀ k v, (k, v) ∈ o.toJSON.members → k = "description" → v.isEmptyValue = false))
    ∧ (("title" ∈ f.toJSON.keys ↔ f.Title ≠ [])
      ∧ ("ok_text" ∈ f.toJSON.keys ↔ f.OkText ≠ [])
      ∧ ("dismiss_text" ∈ f.toJSON.keys ↔ f.DismissText ≠ [])
      ∧ (∀ k v, (k, v) ∈ f.toJSON.members → k ≠ "text" → v.isEmptyValue = false)) := by
  refine ⟨?_, ?_, ?_, ?_, ?_⟩
  · refine ⟨?_, ?_, ?_, ?_, ?_, ?_, ?_, ?_, ?_, ?_, ?_, ?_⟩
    iterate 11
      simp [Payload.toJSON, JSON.keys, JSON.members, mem_members_cons, mem_members_nil,
        mem_omitStr, mem_omitBool, mem_omitSlice]
    intro k v h
    simp only [Payload.toJSON, JSON.members, mem_members_cons, mem_members_nil, mem_omitStr,
      mem_omitBool, mem_omitSlice, Prod.mk.injEq, or_false] at h
    rcases h with h | h | h | h | h | h | h | h | h | h | h <;>
      simp_all [JSON.isEmptyValue, len_eq_zero]
  · refine ⟨?_, ?_, ?_, ?_, ?_, ?_, ?_, ?_, ?_, ?_, ?_, ?_, ?_, ?_, ?_, ?_, ?_, ?_, ?_, ?_⟩
    iterate 19
      simp [Attachment.toJSON, JSON.keys, JSON.members, mem_members_cons, mem_members_nil,
        mem_strField, mem_omitStr, mem_omitInt, mem_omitSlice]
    intro k v h
    simp only [Attachment.toJSON, JSON.members, mem_members_cons, mem_members_nil,
      mem_strField, mem_omitStr, mem_omitInt, mem_omitSlice, Prod.mk.injEq, or_false] at h
    rcases h with h | h | h | h | h | h | h | h | h | h | h | h | h | h | h | h | h | h | h
        | h | h <;>
      simp_all [JSON.isEmptyValue, len_eq_zero]
  · refine ⟨?_, ?_, ?_, ?_, ?_, ?_, ?_, ?_, ?_, ?_⟩
    iterate 9
      simp [AttachmentAction.toJSON, JSON.keys, JSON.members, mem_members_cons,
        mem_members_nil, mem_strField, mem_omitStr, mem_omitInt, mem_omitSlice]
    intro k v h
    simp only [AttachmentAction.toJSON, JSON.members, mem_members_cons, mem_members_nil,
      mem_strField, mem_omitStr, mem_omitInt, mem_omitSlice, Prod.mk.injEq, or_false] at h
    rcases h with h | h | h | h | h | h | h | h | h | h | h | h <;>
      simp_all [JSON.isEmptyValue, len_eq_zero]
  · refine ⟨?_, ?_⟩
    · simp [AttachmentActionOption.toJSON, JSON.keys, JSON.members, mem_members_cons,
        mem_members_nil, mem_strField, mem_omitStr]
    intro k v h
    simp only [AttachmentActionOption.toJSON, JSON.members, mem_members_cons,
      mem_members_nil, mem_strField, mem_omitStr, Prod.mk.injEq, or_false] at h
    rcases h with h | h | h <;> simp_all [JSON.isEmptyValue]
  · refine ⟨?_, ?_, ?_, ?_⟩
    iterate 3
      simp [ConfirmationField.toJSON, JSON.keys, JSON.members, mem_members_cons,
        mem_members_nil, mem_strField, mem_omitStr]
    intro k v h
    simp only [ConfirmationField.toJSON, JSON.members, mem_members_cons, mem_members_nil,
      mem_strField, mem_omitStr, Prod.mk.injEq, or_false] at h
    rcases h with h | h | h | h <;> simp_all [JSON.isEmptyValue]

/-! ## C1: serializing and parsing back -/

/-- C1, as stated, fails: a `Text` holding the single byte `0xFF` (not valid UTF-8) is
written as the replacement rune and comes back as the three bytes of U+FFFD; an
`Attachments` slice that is empty but not `nil` is left out and comes back `nil`. -/
theorem roundtrip_counterexample :
    Payload.ofJSON ({ Text := [0xFF] } : Payload).toJSON
        = some { Text := [0xEF, 0xBF, 0xBD] }
      ∧ Payload.ofJSON ({ Text := [0xFF] } : Payload).toJSON ≠ some { Text := [0xFF] }
      ∧ Payload.ofJSON ({ Attachments := some [] } : Payload).toJSON
        ≠ some { Attachments := some [] } := by
  decide

/-- C1, amended: for every payload whose strings, at every level, are valid UTF-8 and in
which no slice tagged `omitempty` is empty without being `nil`, parsing the document that
`json.Marshal` writes gives back the payload itself, field for field, with attachments,
fields, actions and options in their order. -/
theorem roundtrip_of_stable (p : Payload) (h : p.stable = true) :
    json.Marshal p = .ok (render p.toJSON) ∧ Payload.ofJSON p.toJSON = some p :=
  ⟨rfl, Payload_ofJSON_toJSON p h⟩

/-- The amended C1 at `samplePayload`. -/
theorem roundtrip_of_stable_witness :
    samplePayload.stable = true
      ∧ json.Marshal samplePayload = .ok (render samplePayload.toJSON)
      ∧ Payload.ofJSON samplePayload.toJSON = some samplePayload :=
  ⟨by decide, roundtrip_of_stable samplePayload (by decide)⟩

/-! ## C3: a payload with a text only -/

theorem renderMembers_single (k : String) (v : JSON) :
    renderMembers [(k, v)] = appendString (lit k) ++ lit ":" ++ render v := by
  simp [renderMembers]

/-- C3: for every non-empty string `s`, the payload whose only non-zero field is
`Text = s` serializes to the object with the single key `text`, whose value is the JSON
string encoding of `s`; for `hello` the bytes are exactly `{"text":"hello"}`. -/
theorem marshal_text_only (s : GoString) (h : s ≠ []) :
    ({ Text := s } : Payload).toJSON = .obj [("text", .str s)]
      ∧ json.Marshal { Text := s } = .ok (lit "\x7b\"text\":" ++ appendString s ++ lit "\x7d")
      ∧ json.Marshal { Text := lit "hello" } = .ok (lit "\x7b\"text\":\"hello\"\x7d") := by
  have hdoc : ({ Text := s } : Payload).toJSON = .obj [("text", .str s)] := by
    simp [Payload.toJSON, members, omitStr, omitBool, omitSlice, len, h]
  refine ⟨hdoc, ?_, congrArg Except.ok (by decide)⟩
  simp only [json.Marshal, hdoc, render, renderMembers_single]
  have hk : lit "\x7b\"text\":" = lit "\x7b" ++ (appendString (lit "text") ++ lit ":") := by decide
  rw [hk]
  simp [List.append_assoc]

/-- C3 at `hello`. -/
theorem marshal_text_only_witness :
    lit "hello" ≠ []
      ∧ ({ Text := lit "hello" } : Payload).toJSON = .obj [("text", .str (lit "hello"))]
      ∧ json.Marshal { Text := lit "hello" }
          = .ok (lit "\x7b\"text\":" ++ appendString (lit "hello") ++ lit "\x7d")
      ∧ json.Marshal { Text := lit "hello" } = .ok (lit "\x7b\"text\":\"hello\"\x7d") :=
  ⟨by decide, marshal_text_only (lit "hello") (by decide)⟩


/-! ## Lemmas on the delivery functions -/

theorem Sprintf_status (s : GoString) :
    fmt.Sprintf (lit "Error sending msg. Status: %v") [s]
      = lit "Error sending msg. Status: " ++ s := by
  have h : fmt.Sprintf (lit "Error sending msg. Status: %v") [s]
      = lit "Error sending msg. Status: " ++ (s ++ []) := rfl
  rw [h, List.append_nil]

theorem clientDo_final (net : Net) (policy : Request → List Request → Option GoError)
    (fuel : Nat) (req : Request) (via : List Request) (resp : Response)
    (hrt : net.RoundTrip req = .ok resp) (hnr : isRedirect resp = false) :
    http.clientDo net policy (fuel + 1) req via = (.ok resp, [req]) := by
  simp [http.clientDo, hrt, hnr]

theorem clientDo_refused (net : Net) (policy : Request → List Request → Option GoError)
    (fuel : Nat) (req : Request) (via : List Request) (resp : Response) (err : GoError)
    (hrt : net.RoundTrip req = .ok resp) (hr : isRedirect resp = true)
    (hp : policy (redirectRequest req resp) (via ++ [req]) = some err) :
    http.clientDo net policy (fuel + 1) req via
      = (.error (net.URLError req.Method resp.Location err), [req]) := by
  simp [http.clientDo, hrt, hr, hp]

theorem sendAgent_Errors (net : Net) (webhookUrl proxy : GoString) (payload : Payload) :
    (sendAgent net webhookUrl proxy payload).Errors = [] := by
  simp [sendAgent, SuperAgent.Send, SuperAgent.RedirectPolicy, SuperAgent.Post]

theorem sendAgent_Url (net : Net) (webhookUrl proxy : GoString) (payload : Payload) :
    (sendAgent net webhookUrl proxy payload).Url = webhookUrl := by
  simp [sendAgent, SuperAgent.Send, SuperAgent.RedirectPolicy, SuperAgent.Post]

theorem sendAgent_CheckRedirect (net : Net) (webhookUrl proxy : GoString)
    (payload : Payload) :
    (sendAgent net webhookUrl proxy payload).CheckRedirect = redirectPolicyFunc := by
  simp [sendAgent, SuperAgent.Send, SuperAgent.RedirectPolicy, SuperAgent.Post]

theorem Send_of_End_ok (net : Net) (fuel : Nat) (webhookUrl proxy : GoString)
    (payload : Payload) (resp : Response) (body : GoString) (issued : List Request)
    (h : (sendAgent net webhookUrl proxy payload).End net fuel = (.ok (resp, body), issued)) :
    Send net fuel webhookUrl proxy payload =
      (if resp.StatusCode ≥ 400 then
        [(⟨lit "Error sending msg. Status: " ++ resp.Status⟩ : GoError)] else [], issued) := by
  simp only [Send, h, fmt.Errorf, Sprintf_status]
  split <;> rfl

theorem PostMessage_of_Post_ok (net : Net) (webhookUrl : GoString) (payload : Payload)
    (resp : Response) (issued : List Request)
    (h : http.Post net webhookUrl (lit "application/json") (render payload.toJSON)
      = (.ok resp, issued)) :
    PostMessage net webhookUrl payload =
      (if resp.StatusCode ≠ 200 then some (errors.New resp.Body.data) else none, issued) := by
  simp only [PostMessage, json.Marshal, h, ioutil.ReadAll]
  split <;> rfl

theorem End_of_final (net : Net) (fuel : Nat) (webhookUrl proxy : GoString)
    (payload : Payload) (resp : Response)
    (hurl : url.Parse net webhookUrl = none)
    (hrt : net.RoundTrip (sendAgent net webhookUrl proxy payload).request = .ok resp)
    (hnr : isRedirect resp = false) (hbody : resp.Body.err = none) :
    (sendAgent net webhookUrl proxy payload).End net (fuel + 1)
      = (.ok (resp, resp.Body.data), [(sendAgent net webhookUrl proxy payload).request]) := by
  simp [SuperAgent.End, sendAgent_Errors, sendAgent_Url, hurl,
    clientDo_final net _ fuel _ [] resp hrt hnr, ioutil.ReadAll, hbody]

theorem Post_of_final (net : Net) (target contentType body : GoString) (resp : Response)
    (hurl : url.Parse net target = none)
    (hrt : net.RoundTrip (http.postRequest target contentType body) = .ok resp)
    (hnr : isRedirect resp = false) :
    http.Post net target contentType body
      = (.ok resp, [http.postRequest target contentType body]) := by
  simp [http.Post, hurl, clientDo_final net _ 9 _ [] resp hrt hnr]

/-! ## C4: which status codes `PostMessage` accepts -/

/-- C4, as stated, fails: status 204 lies in 200..299 and `PostMessage` returns an error
(with the empty body as its message). -/
theorem PostMessage_204_counterexample :
    (200 : Int) ≤ 204 ∧ (204 : Int) ≤ 299
      ∧ (PostMessage (Net.answering resp204) sampleURL { Text := lit "hello" }).1
          = some (errors.New []) := by
  decide

/-- C4, amended: for every webhook URL, every payload and every response that `http.Post`
returns (no transport failure), `PostMessage` returns `nil` exactly when the status code
is 200, whatever the body of the response. -/
theorem PostMessage_nil_iff_200 (net : Net) (webhookUrl : GoString) (payload : Payload)
    (resp : Response) (issued : List Request)
    (h : http.Post net webhookUrl (lit "application/json") (render payload.toJSON)
      = (.ok resp, issued)) :
    (PostMessage net webhookUrl payload).1 = none ↔ resp.StatusCode = 200 := by
  rw [PostMessage_of_Post_ok net webhookUrl payload resp issued h]
  by_cases hs : resp.StatusCode = 200 <;> simp [hs]

/-- The amended C4 at a response `200 OK` with body `ok`. -/
theorem PostMessage_nil_iff_200_witness :
    http.Post (Net.answering resp200) sampleURL (lit "application/json")
        (render samplePayload.toJSON)
      = (.ok resp200,
          [http.postRequest sampleURL (lit "application/json")
            (render samplePayload.toJSON)])
    ∧ ((PostMessage (Net.answering resp200) sampleURL samplePayload).1 = none
        ↔ resp200.StatusCode = 200) :=
  ⟨rfl, PostMessage_nil_iff_200 (Net.answering resp200) sampleURL samplePayload resp200 _ rfl⟩

/-! ## C5 and C6: the error of `PostMessage` -/

/-- C5, as stated, fails: for status 500 with body `internal_error` the message of the
error is `internal_error`, in which `500` does not occur. -/
theorem PostMessage_500_counterexample :
    (PostMessage (Net.answering resp500) sampleURL { Text := lit "hello" }).1
        = some ⟨lit "internal_error"⟩
      ∧ ¬ (appendInt 500 <:+: lit "internal_error") := by
  decide

/-- C5, amended: for every response whose status code is outside 200..299 and every
body, `PostMessage` fails with an error whose message contains the body text, being
exactly that text; the status code is not put into the message. -/
theorem PostMessage_error_contains_body (net : Net) (webhookUrl : GoString)
    (payload : Payload) (resp : Response) (issued : List Request)
    (h : http.Post net webhookUrl (lit "application/json") (render payload.toJSON)
      = (.ok resp, issued))
    (hs : resp.StatusCode < 200 ∨ 299 < resp.StatusCode) :
    ∃ err, (PostMessage net webhookUrl payload).1 = some err
      ∧ resp.Body.data <:+: err.Error ∧ err.Error = resp.Body.data := by
  rw [PostMessage_of_Post_ok net webhookUrl payload resp issued h]
  have hne : resp.StatusCode ≠ 200 := by omega
  exact ⟨errors.New resp.Body.data, by simp [hne], List.infix_refl _, rfl⟩

/-- The amended C5 at status 500 with body `internal_error`. -/
theorem PostMessage_error_contains_body_witness :
    (resp500.StatusCode < 200 ∨ 299 < resp500.StatusCode)
      ∧ ∃ err, (PostMessage (Net.answering resp500) sampleURL samplePayload).1 = some err
          ∧ lit "internal_error" <:+: err.Error ∧ err.Error = lit "internal_error" :=
  ⟨by decide,
    PostMessage_error_contains_body (Net.answering resp500) sampleURL samplePayload resp500 _
      rfl (by decide)⟩

/-- C6: for every response with a status code other than 200 and every body, the error
`PostMessage` returns is `errors.New` of the bytes read from the body: its message is the
body, byte for byte. -/
theorem PostMessage_error_is_body (net : Net) (webhookUrl : GoString) (payload : Payload)
    (resp : Response) (issued : List Request)
    (h : http.Post net webhookUrl (lit "application/json") (render payload.toJSON)
      = (.ok resp, issued))
    (hs : resp.StatusCode ≠ 200) :
    (PostMessage net webhookUrl payload).1 = some (errors.New (ioutil.ReadAll resp.Body).1)
      ∧ (errors.New (ioutil.ReadAll resp.Body).1).Error = resp.Body.data := by
  rw [PostMessage_of_Post_ok net webhookUrl payload resp issued h]
  simp [hs, ioutil.ReadAll, errors.New]

/-- C6 at status 404 with body `channel_not_found`. -/
theorem PostMessage_error_is_body_witness :
    resp404.StatusCode ≠ 200
      ∧ (PostMessage (Net.answering resp404) sampleURL samplePayload).1
          = some (errors.New (lit "channel_not_found"))
      ∧ (errors.New (lit "channel_not_found")).Error = lit "channel_not_found" :=
  ⟨by decide,
    PostMessage_error_is_body (Net.answering resp404) sampleURL samplePayload resp404 _
      rfl (by decide)⟩

/-! ## C7: redirects -/

/-- C7: for every request and every history, `redirectPolicyFunc` returns an error whose
message is exactly `Incorrect token (redirection)`; so whenever the answer to the request
of `Send` is a redirect, `Send` returns a non-empty list of errors, and the request of
`Send` is the only one issued: nothing goes to the target of the redirect. -/
theorem Send_refuses_redirect :
    (∀ (req : Request) (via : List Request),
      redirectPolicyFunc req via = some ⟨lit "Incorrect token (redirection)"⟩)
    ∧ (∀ (net : Net) (fuel : Nat) (webhookUrl proxy : GoString) (payload : Payload)
        (resp : Response),
        0 < fuel → url.Parse net webhookUrl = none →
        net.RoundTrip (sendAgent net webhookUrl proxy payload).request = .ok resp →
        isRedirect resp = true →
        (Send net fuel webhookUrl proxy payload).1 ≠ []
          ∧ (Send net fuel webhookUrl proxy payload).2
              = [(sendAgent net webhookUrl proxy payload).request]) := by
  refine ⟨fun _ _ => rfl, ?_⟩
  intro net fuel webhookUrl proxy payload resp hfuel hurl hrt hr
  obtain ⟨n, rfl⟩ : ∃ n, fuel = n + 1 := ⟨fuel - 1, by omega⟩
  have hdo := clientDo_refused net redirectPolicyFunc n
    (sendAgent net webhookUrl proxy payload).request [] resp _ hrt hr rfl
  simp [Send, SuperAgent.End, sendAgent_Errors, sendAgent_Url, sendAgent_CheckRedirect,
    hurl, hdo]

/-- C7 at a response `302 Found` that points to another host. -/
theorem Send_refuses_redirect_witness :
    (0 < 1 ∧ isRedirect resp302 = true)
    ∧ (Send (Net.answering resp302) 1 sampleURL [] samplePayload).1 ≠ []
    ∧ (Send (Net.answering resp302) 1 sampleURL [] samplePayload).2
        = [(sendAgent (Net.answering resp302) sampleURL [] samplePayload).request] :=
  ⟨⟨by decide, by decide⟩,
    Send_refuses_redirect.2 (Net.answering resp302) 1 sampleURL [] samplePayload resp302
      (by decide) rfl rfl (by decide)⟩

/-! ## C8: the two delivery functions on the same response -/

/-- C8, as stated, fails: on a response `204 No Content` (not a redirect, no transport
failure) `Send` with an empty proxy returns `nil` and `PostMessage` returns an error. -/
theorem Send_PostMessage_204_counterexample :
    isRedirect resp204 = false
      ∧ (Send (Net.answering resp204) 1
          sampleURL [] { Text := lit "hello" }).1 = []
      ∧ (PostMessage (Net.answering resp204)
          sampleURL { Text := lit "hello" }).1 ≠ none := by
  decide

/-- C8, amended: on the same response (not a redirect, no transport failure, body read to
its end), `Send` with an empty proxy fails exactly for a status code of 400 or more and
`PostMessage` exactly for a status code other than 200; the two agree on success versus
failure exactly when the status code is 200 or at least 400. -/
theorem Send_PostMessage_agree_iff (net : Net) (fuel : Nat) (webhookUrl : GoString)
    (payload : Payload) (resp : Response)
    (hfuel : 0 < fuel) (hurl : url.Parse net webhookUrl = none)
    (hsend : net.RoundTrip (sendAgent net webhookUrl [] payload).request = .ok resp)
    (hpost : net.RoundTrip (http.postRequest webhookUrl (lit "application/json")
      (render payload.toJSON)) = .ok resp)
    (hnr : isRedirect resp = false) (hbody : resp.Body.err = none) :
    ((Send net fuel webhookUrl [] payload).1 ≠ [] ↔ 400 ≤ resp.StatusCode)
      ∧ ((PostMessage net webhookUrl payload).1 ≠ none ↔ resp.StatusCode ≠ 200)
      ∧ (((Send net fuel webhookUrl [] payload).1 ≠ []
            ↔ (PostMessage net webhookUrl payload).1 ≠ none)
          ↔ (resp.StatusCode = 200 ∨ 400 ≤ resp.StatusCode)) := by
  obtain ⟨n, rfl⟩ : ∃ n, fuel = n + 1 := ⟨fuel - 1, by omega⟩
  have hS := Send_of_End_ok net (n + 1) webhookUrl [] payload resp resp.Body.data _
    (End_of_final net n webhookUrl [] payload resp hurl hsend hnr hbody)
  have hP := PostMessage_of_Post_ok net webhookUrl payload resp _
    (Post_of_final net webhookUrl _ _ resp hurl hpost hnr)
  have h1 : (Send net (n + 1) webhookUrl [] payload).1 ≠ [] ↔ 400 ≤ resp.StatusCode := by
    rw [hS]; by_cases h : resp.StatusCode ≥ 400 <;> simp [h]
  have h2 : (PostMessage net webhookUrl payload).1 ≠ none ↔ resp.StatusCode ≠ 200 := by
    rw [hP]; by_cases h : resp.StatusCode = 200 <;> simp [h]
  refine ⟨h1, h2, ?_⟩
  rw [h1, h2]
  constructor
  · intro h
    by_cases h4 : 400 ≤ resp.StatusCode
    · exact Or.inr h4
    · exact Or.inl (by by_contra h2'; exact h4 (h.mpr h2'))
  · rintro (h | h)
    · constructor
      · intro h4; omega
      · intro hne; exact absurd h hne
    · constructor
      · intro _; omega
      · intro _; exact h

/-- The amended C8 at the response `404 Not Found`, on which both functions fail. -/
theorem Send_PostMessage_agree_iff_witness :
    (0 < 1 ∧ isRedirect resp404 = false ∧ resp404.Body.err = none)
    ∧ ((Send (Net.answering resp404) 1 sampleURL [] samplePayload).1 ≠ []
        ↔ 400 ≤ resp404.StatusCode)
    ∧ ((PostMessage (Net.answering resp404) sampleURL samplePayload).1 ≠ none
        ↔ resp404.StatusCode ≠ 200)
    ∧ (((Send (Net.answering resp404) 1 sampleURL [] samplePayload).1 ≠ []
          ↔ (PostMessage (Net.answering resp404) sampleURL samplePayload).1 ≠ none)
        ↔ (resp404.StatusCode = 200 ∨ 400 ≤ resp404.StatusCode)) :=
  ⟨⟨by decide, by decide, rfl⟩,
    Send_PostMessage_agree_iff (Net.answering resp404) 1 sampleURL samplePayload resp404
      (by decide) rfl rfl rfl (by decide) rfl⟩

/-! ## C9: the number of actions -/

theorem isRedirect_of_200 (resp : Response) (h : resp.StatusCode = 200) :
    isRedirect resp = false := by
  simp [isRedirect, h]

theorem get_actions (a : Attachment) :
    JSON.get "actions" a.toJSON.members
      = if len a.Actions = 0 then none
        else some (.arr ((a.Actions.getD []).map AttachmentAction.toJSON)) := by
  simp [Attachment.toJSON, JSON.members]

/-- C9, as stated, fails: the payload `sixActions` has an attachment with six actions;
`PostMessage` and `Send` issue their request with it and return `nil` on the answer
`200 OK`, and the document sent lists the six actions. -/
theorem six_actions_counterexample :
    (sixActions.Attachments.getD []).map (fun a => len a.Actions) = [6]
      ∧ PostMessage (Net.answering resp200) sampleURL sixActions
          = (none, [http.postRequest sampleURL (lit "application/json")
              (render sixActions.toJSON)])
      ∧ Send (Net.answering resp200) 1 sampleURL [] sixActions
          = ([], [(sendAgent (Net.answering resp200) sampleURL [] sixActions).request])
      ∧ (sixActions.Attachments.getD []).map
            (fun a => JSON.get "actions" a.toJSON.members)
          = [some (.arr (List.replicate 6
              (AttachmentAction.toJSON
                { Name := lit "b", Text := lit "B", Type_ := lit "button" })))] :=
  ⟨by decide, rfl, rfl, rfl⟩

/-- C9, amended: no validation of the number of actions takes place. For every payload,
with five actions or fewer in each attachment or with more, `json.Marshal` succeeds and
writes all the actions of an attachment, in order, under `actions`; `PostMessage` and
`Send` issue their request with the payload, and return `nil` when the answer is 200. -/
theorem delivery_ignores_action_count (net : Net) (fuel : Nat)
    (webhookUrl proxy : GoString) (payload : Payload) (resp : Response)
    (hfuel : 0 < fuel) (hurl : url.Parse net webhookUrl = none)
    (hsend : net.RoundTrip (sendAgent net webhookUrl proxy payload).request = .ok resp)
    (hpost : net.RoundTrip (http.postRequest webhookUrl (lit "application/json")
      (render payload.toJSON)) = .ok resp)
    (hok : resp.StatusCode = 200) (hbody : resp.Body.err = none) :
    json.Marshal payload = .ok (render payload.toJSON)
      ∧ (∀ a : Attachment, len a.Actions ≠ 0 →
          JSON.get "actions" a.toJSON.members
            = some (.arr ((a.Actions.getD []).map AttachmentAction.toJSON)))
      ∧ PostMessage net webhookUrl payload
          = (none, [http.postRequest webhookUrl (lit "application/json")
              (render payload.toJSON)])
      ∧ Send net fuel webhookUrl proxy payload
          = ([], [(sendAgent net webhookUrl proxy payload).request]) := by
  obtain ⟨n, rfl⟩ : ∃ n, fuel = n + 1 := ⟨fuel - 1, by omega⟩
  have hnr := isRedirect_of_200 resp hok
  refine ⟨rfl, ?_, ?_, ?_⟩
  · intro a ha
    rw [get_actions, if_neg ha]
  · rw [PostMessage_of_Post_ok net webhookUrl payload resp _
      (Post_of_final net webhookUrl _ _ resp hurl hpost hnr)]
    simp [hok]
  · rw [Send_of_End_ok net (n + 1) webhookUrl proxy payload resp resp.Body.data _
      (End_of_final net n webhookUrl proxy payload resp hurl hsend hnr hbody)]
    simp [hok]

/-- The amended C9 at `sixActions`. -/
theorem delivery_ignores_action_count_witness :
    (0 < 1 ∧ resp200.StatusCode = 200 ∧ resp200.Body.err = none)
      ∧ json.Marshal sixActions = .ok (render sixActions.toJSON)
      ∧ (∀ a : Attachment, len a.Actions ≠ 0 →
          JSON.get "actions" a.toJSON.members
            = some (.arr ((a.Actions.getD []).map AttachmentAction.toJSON)))
      ∧ PostMessage (Net.answering resp200) sampleURL sixActions
          = (none, [http.postRequest sampleURL (lit "application/json")
              (render sixActions.toJSON)])
      ∧ Send (Net.answering resp200) 1 sampleURL [] sixActions
          = ([], [(sendAgent (Net.answering resp200) sampleURL [] sixActions).request]) :=
  ⟨⟨by decide, rfl, rfl⟩,
    delivery_ignores_action_count (Net.answering resp200) 1 sampleURL [] sixActions resp200
      (by decide) rfl rfl rfl rfl rfl⟩

/-! ## C10: the result of `Send` on a response -/

/-- C10: when `End` hands a response to `Send` (no transport error, no redirect error),
`Send` returns `nil` exactly when the status code is below 400; for a status code of 400
or more it returns one error, whose message is `Error sending msg. Status: ` followed by
the status text of the response. The body has no part in it: two responses with the same
status code and status text give the same result, whatever their bodies. -/
theorem Send_result_of_response (net : Net) (fuel : Nat) (webhookUrl proxy : GoString)
    (payload : Payload) (resp : Response) (body : GoString) (issued : List Request)
    (h : (sendAgent net webhookUrl proxy payload).End net fuel = (.ok (resp, body), issued)) :
    ((Send net fuel webhookUrl proxy payload).1 = [] ↔ resp.StatusCode < 400)
      ∧ (400 ≤ resp.StatusCode →
          (Send net fuel webhookUrl proxy payload).1
            = [⟨lit "Error sending msg. Status: " ++ resp.Status⟩])
      ∧ (∀ (net' : Net) (fuel' : Nat) (webhookUrl' proxy' : GoString) (payload' : Payload)
          (resp' : Response) (body' : GoString) (issued' : List Request),
          (sendAgent net' webhookUrl' proxy' payload').End net' fuel'
            = (.ok (resp', body'), issued') →
          resp'.StatusCode = resp.StatusCode → resp'.Status = resp.Status →
          (Send net' fuel' webhookUrl' proxy' payload').1
            = (Send net fuel webhookUrl proxy payload).1) := by
  have hS := Send_of_End_ok net fuel webhookUrl proxy payload resp body issued h
  refine ⟨?_, ?_, ?_⟩
  · rw [hS]
    by_cases h4 : resp.StatusCode ≥ 400
    · simp [h4]
    · simp [h4]; omega
  · intro h4
    rw [hS]
    simp [h4]
  · intro net' fuel' webhookUrl' proxy' payload' resp' body' issued' h' hc hst
    rw [hS, Send_of_End_ok net' fuel' webhookUrl' proxy' payload' resp' body' issued' h',
      hc, hst]

/-- C10 at the response `404 Not Found` with body `channel_not_found`. -/
theorem Send_result_of_response_witness :
    (sendAgent (Net.answering resp404) sampleURL [] samplePayload).End
        (Net.answering resp404) 1
      = (.ok (resp404, lit "channel_not_found"),
          [(sendAgent (Net.answering resp404) sampleURL [] samplePayload).request])
    ∧ ((Send (Net.answering resp404) 1 sampleURL [] samplePayload).1 = []
        ↔ resp404.StatusCode < 400)
    ∧ (Send (Net.answering resp404) 1 sampleURL [] samplePayload).1
        = [⟨lit "Error sending msg. Status: 404 Not Found"⟩] :=
  ⟨rfl,
    (Send_result_of_response (Net.answering resp404) 1 sampleURL [] samplePayload resp404
      (lit "channel_not_found") _ rfl).1,
    (Send_result_of_response (Net.answering resp404) 1 sampleURL [] samplePayload resp404
      (lit "channel_not_found") _ rfl).2.1 (by decide)⟩

end Slack
